import Mathlib

/-!
Shallow embedding of `src/bikeshare.py` (a pandas-based bike-share
statistics program) and proofs about its filtering and aggregation
behaviour.

Modelling conventions:
* Python strings are modelled as `List Char` (`PyStr`); `str.lower()` is
  `pyLower` and `str.strip()` is `pyStrip`.
* A pandas `DataFrame` is a list of rows plus flags recording which
  optional columns (`Gender`, `Birth Year`, `Trip`) are present.
* Python exceptions (`KeyError`, `ValueError`) are modelled with
  `Except PyError`.
* Python floats are modelled exactly: `PyFloat` is either `nan` or an
  exact rational value.
* `pandas.Series.mode()` returns the values of maximal multiplicity
  sorted in ascending order, so `.mode()[0]` is the least value among
  those of maximal multiplicity; `pandasMode0` reproduces that.
-/

namespace Bikeshare

/-- Python strings, modelled as lists of characters. -/
abbrev PyStr := List Char

/-- Shorthand turning a Lean string literal into a `PyStr`. -/
def pys (s : String) : PyStr := s.data

/-- Python `str.lower()` (the data in this program is ASCII). -/
def pyLower (s : PyStr) : PyStr := s.map Char.toLower

/-- Python `str.isspace` character class used by `str.strip()`:
space, tab, newline, carriage return, vertical tab, form feed. -/
def pyIsSpace (c : Char) : Bool :=
  decide (c = ' ') || decide (c = Char.ofNat 9) || decide (c = Char.ofNat 10) ||
  decide (c = Char.ofNat 13) || decide (c = Char.ofNat 11) || decide (c = Char.ofNat 12)

/-- Python `str.strip()`: remove leading and trailing whitespace. -/
def pyStrip (s : PyStr) : PyStr :=
  ((s.dropWhile pyIsSpace).reverse.dropWhile pyIsSpace).reverse

/-- Python string comparison: lexicographic on code points
(a proper non-empty prefix is smaller). -/
def strLe : PyStr → PyStr → Bool
  | [], _ => true
  | _ :: _, [] => false
  | a :: as, b :: bs =>
      decide (a.toNat < b.toNat) || (decide (a.toNat = b.toNat) && strLe as bs)

/-- Boolean `≤` on `Nat`, used as the sort order of numeric pandas modes. -/
def natLeB (a b : Nat) : Bool := decide (a ≤ b)

/-- Boolean `≤` on `Int`, used as the sort order of numeric pandas modes. -/
def intLeB (a b : Int) : Bool := decide (a ≤ b)

/-- Number of occurrences of `a` in `l` (the multiplicity pandas counts). -/
def countIn [DecidableEq α] (l : List α) (a : α) : Nat :=
  (l.filter (fun x => decide (x = a))).length

/-- The highest multiplicity of any element of `l` (0 for the empty list). -/
def maxCount [DecidableEq α] (l : List α) : Nat :=
  (l.map (countIn l)).foldr max 0

/-- The distinct elements of `l` of maximal multiplicity. -/
def modeCandidates [DecidableEq α] (l : List α) : List α :=
  l.dedup.filter (fun a => decide (countIn l a = maxCount l))

/-- Least element of `c :: cs` with respect to the boolean order `le`. -/
def foldMin (le : α → α → Bool) (c : α) (cs : List α) : α :=
  cs.foldl (fun m x => if le x m then x else m) c

/-- `pandas.Series.mode()[0]`: among the values of maximal multiplicity,
the least one in the ascending sort order `le` (`none` on an empty
series, where the pandas expression raises). -/
def pandasMode0 [DecidableEq α] (le : α → α → Bool) (l : List α) : Option α :=
  match modeCandidates l with
  | [] => none
  | c :: cs => some (foldMin le c cs)

/-- The property the amended mode claim asserts: `m` occurs in `l`, has
maximal multiplicity, and is `le`-least among the values of maximal
multiplicity. -/
def isLeastMode [DecidableEq α] (le : α → α → Bool) (l : List α) (m : α) : Prop :=
  m ∈ l ∧ (∀ v ∈ l, countIn l v ≤ countIn l m) ∧
    ∀ v ∈ l, countIn l v = countIn l m → le m v = true

theorem countIn_pos_of_mem [DecidableEq α] {l : List α} {a : α} (h : a ∈ l) :
    0 < countIn l a := by
  have : a ∈ l.filter (fun x => decide (x = a)) :=
    List.mem_filter.mpr ⟨h, by simp⟩
  exact List.length_pos.mpr (List.ne_nil_of_mem this)

theorem le_foldr_max {n : Nat} {ns : List Nat} (h : n ∈ ns) :
    n ≤ ns.foldr max 0 := by
  induction ns with
  | nil => cases h
  | cons m ms ih =>
    rcases List.mem_cons.mp h with rfl | h2
    · exact le_max_left _ _
    · exact (ih h2).trans (le_max_right _ _)

theorem foldr_max_mem (ns : List Nat) :
    ns.foldr max 0 ∈ ns ∨ ns.foldr max 0 = 0 := by
  induction ns with
  | nil => exact Or.inr rfl
  | cons m ms ih =>
    have hrw : (m :: ms).foldr max 0 = max m (ms.foldr max 0) := rfl
    rcases max_choice m (ms.foldr max 0) with h | h
    · exact Or.inl (by rw [hrw, h]; exact List.mem_cons_self _ _)
    · rcases ih with h2 | h2
      · exact Or.inl (by rw [hrw, h]; exact List.mem_cons_of_mem _ h2)
      · refine Or.inl ?_
        have hm0 : m = 0 := by
          rw [h2] at h
          exact (Nat.max_eq_zero_iff.mp h).1
        rw [hrw, h, h2, hm0]
        exact List.mem_cons_self _ _

theorem exists_countIn_eq_maxCount [DecidableEq α] {l : List α} (h : l ≠ []) :
    ∃ a ∈ l, countIn l a = maxCount l := by
  rcases foldr_max_mem (l.map (countIn l)) with hm | hm
  · rcases List.mem_map.mp hm with ⟨a, ha, hae⟩
    exact ⟨a, ha, hae⟩
  · rcases List.exists_mem_of_ne_nil l h with ⟨b, hb⟩
    have h1 : 0 < countIn l b := countIn_pos_of_mem hb
    have h2 : countIn l b ≤ maxCount l :=
      le_foldr_max (List.mem_map_of_mem (countIn l) hb)
    have : maxCount l = 0 := hm
    omega

theorem mem_foldMin (le : α → α → Bool) (c : α) (cs : List α) :
    foldMin le c cs ∈ c :: cs := by
  induction cs generalizing c with
  | nil => exact List.mem_cons_self _ _
  | cons d ds ih =>
    have hstep : foldMin le c (d :: ds) = foldMin le (if le d c then d else c) ds := rfl
    by_cases hle : le d c
    · rw [hstep, if_pos hle]
      rcases List.mem_cons.mp (ih d) with h | h
      · rw [h]; exact List.mem_cons_of_mem _ (List.mem_cons_self _ _)
      · exact List.mem_cons_of_mem _ (List.mem_cons_of_mem _ h)
    · rw [hstep, if_neg hle]
      rcases List.mem_cons.mp (ih c) with h | h
      · rw [h]; exact List.mem_cons_self _ _
      · exact List.mem_cons_of_mem _ (List.mem_cons_of_mem _ h)

theorem foldMin_le (le : α → α → Bool)
    (htot : ∀ a b, le a b = true ∨ le b a = true)
    (htr : ∀ a b c, le a b = true → le b c = true → le a c = true)
    (c : α) (cs : List α) : ∀ x ∈ c :: cs, le (foldMin le c cs) x = true := by
  induction cs generalizing c with
  | nil =>
    intro x hx
    rcases List.mem_cons.mp hx with rfl | h
    · rcases htot x x with h | h <;> exact h
    · cases h
  | cons d ds ih =>
    have hstep : foldMin le c (d :: ds) = foldMin le (if le d c then d else c) ds := rfl
    by_cases hle : le d c
    · intro x hx
      rw [hstep, if_pos hle]
      rcases List.mem_cons.mp hx with rfl | hx2
      · exact htr _ _ _ (ih d d (List.mem_cons_self _ _)) hle
      · rcases List.mem_cons.mp hx2 with rfl | hx3
        · exact ih x x (List.mem_cons_self _ _)
        · exact ih d x (List.mem_cons_of_mem _ hx3)
    · intro x hx
      rw [hstep, if_neg hle]
      rcases List.mem_cons.mp hx with rfl | hx2
      · exact ih x x (List.mem_cons_self _ _)
      · rcases List.mem_cons.mp hx2 with rfl | hx3
        · rcases htot x c with h | h
          · exact absurd h hle
          · exact htr _ _ _ (ih c c (List.mem_cons_self _ _)) h
        · exact ih c x (List.mem_cons_of_mem _ hx3)

theorem pandasMode0_spec [DecidableEq α] (le : α → α → Bool)
    (htot : ∀ a b, le a b = true ∨ le b a = true)
    (htr : ∀ a b c, le a b = true → le b c = true → le a c = true)
    {l : List α} {m : α} (h : pandasMode0 le l = some m) :
    isLeastMode le l m := by
  unfold pandasMode0 at h
  rcases hc : modeCandidates l with _ | ⟨c, cs⟩
  · rw [hc] at h; cases h
  · rw [hc] at h
    have hm : m = foldMin le c cs := (Option.some.inj h).symm
    have hmem : m ∈ modeCandidates l := by
      rw [hc, hm]; exact mem_foldMin le c cs
    have hmem2 : m ∈ l.dedup.filter (fun a => decide (countIn l a = maxCount l)) := hmem
    have h1 := List.mem_filter.mp hmem2
    have hml : m ∈ l := List.mem_dedup.mp h1.1
    have hcnt : countIn l m = maxCount l := by
      have h2 := h1.2
      simpa using h2
    refine ⟨hml, ?_, ?_⟩
    · intro v hv
      have := le_foldr_max (List.mem_map_of_mem (countIn l) hv)
      rw [hcnt]; exact this
    · intro v hv hveq
      have hvc : v ∈ modeCandidates l := by
        refine List.mem_filter.mpr ⟨List.mem_dedup.mpr hv, ?_⟩
        exact decide_eq_true (hveq.trans hcnt)
      rw [hc] at hvc
      rw [hm]
      exact foldMin_le le htot htr c cs v hvc

theorem pandasMode0_eq_some [DecidableEq α] (le : α → α → Bool)
    {l : List α} (h : l ≠ []) : ∃ m, pandasMode0 le l = some m := by
  rcases exists_countIn_eq_maxCount h with ⟨a, ha, hae⟩
  have : a ∈ modeCandidates l :=
    List.mem_filter.mpr ⟨List.mem_dedup.mpr ha, decide_eq_true hae⟩
  unfold pandasMode0
  rcases hc : modeCandidates l with _ | ⟨c, cs⟩
  · rw [hc] at this; cases this
  · exact ⟨foldMin le c cs, rfl⟩

theorem natLeB_total : ∀ a b : Nat, natLeB a b = true ∨ natLeB b a = true := by
  intro a b
  rcases Nat.le_total a b with h | h
  · exact Or.inl (decide_eq_true h)
  · exact Or.inr (decide_eq_true h)

theorem natLeB_trans : ∀ a b c : Nat,
    natLeB a b = true → natLeB b c = true → natLeB a c = true := by
  intro a b c h1 h2
  exact decide_eq_true ((of_decide_eq_true h1).trans (of_decide_eq_true h2))

theorem intLeB_total : ∀ a b : Int, intLeB a b = true ∨ intLeB b a = true := by
  intro a b
  rcases Int.le_total a b with h | h
  · exact Or.inl (decide_eq_true h)
  · exact Or.inr (decide_eq_true h)

theorem intLeB_trans : ∀ a b c : Int,
    intLeB a b = true → intLeB b c = true → intLeB a c = true := by
  intro a b c h1 h2
  exact decide_eq_true ((of_decide_eq_true h1).trans (of_decide_eq_true h2))

theorem strLe_total : ∀ s t : PyStr, strLe s t = true ∨ strLe t s = true := by
  intro s
  induction s with
  | nil => intro t; exact Or.inl rfl
  | cons a as ih =>
    intro t
    rcases t with _ | ⟨b, bs⟩
    · exact Or.inr rfl
    · rcases Nat.lt_trichotomy a.toNat b.toNat with h | h | h
      · exact Or.inl (by simp [strLe, h])
      · rcases ih bs with h2 | h2
        · exact Or.inl (by simp [strLe, h, h2])
        · exact Or.inr (by simp [strLe, h.symm, h2])
      · exact Or.inr (by simp [strLe, h])

theorem strLe_trans : ∀ s t u : PyStr,
    strLe s t = true → strLe t u = true → strLe s u = true := by
  intro s
  induction s with
  | nil => intro t u _ _; rfl
  | cons a as ih =>
    intro t u h1 h2
    rcases t with _ | ⟨b, bs⟩
    · simp [strLe] at h1
    · rcases u with _ | ⟨c, cs⟩
      · simp [strLe] at h2
      · simp only [strLe, Bool.or_eq_true, Bool.and_eq_true, decide_eq_true_eq] at h1 h2 ⊢
        rcases h1 with h1 | ⟨h1e, h1r⟩
        · rcases h2 with h2 | ⟨h2e, h2r⟩
          · exact Or.inl (h1.trans h2)
          · exact Or.inl (h2e ▸ h1)
        · rcases h2 with h2 | ⟨h2e, h2r⟩
          · exact Or.inl (h1e ▸ h2)
          · exact Or.inr ⟨h1e.trans h2e, ih bs cs h1r h2r⟩

/-- One trip record, i.e. one row of the loaded DataFrame.  The fields
`month`, `dayOfWeek` and `hour` are the columns derived from
`Start Time` in `load_data` (src/bikeshare.py lines 28-31); the rest are
the source columns the aggregate functions read.  `gender`, `birthYear`
and `trip` are meaningful only when the enclosing frame's corresponding
column-presence flag is set. -/
structure Row where
  month : Nat := 1
  dayOfWeek : PyStr := []
  hour : Nat := 0
  startStation : PyStr := []
  endStation : PyStr := []
  tripDuration : Int := 0
  userType : PyStr := []
  gender : PyStr := []
  birthYear : Int := 0
  trip : PyStr := []
deriving DecidableEq, Repr

/-- A pandas DataFrame for this program: an ordered list of rows plus
flags recording which optional columns exist (`Gender` and `Birth Year`
exist for chicago and new york city but not washington; `Trip` is added
by `most_common_stations`).  Accessing a column whose flag is false
models a pandas `KeyError`. -/
structure DataFrame where
  rows : List Row := []
  hasGender : Bool := true
  hasBirthYear : Bool := true
  hasTrip : Bool := false
deriving DecidableEq, Repr

/-- Python exceptions raised by the program: `KeyError` (missing dict or
column key) and `ValueError` (invalid filter value).  The spec's
`DataSourceError`, `InvalidFilterError` and `UnsupportedForCityError`
name the `KeyError`/`ValueError`/`KeyError` the code actually raises. -/
inductive PyError where
  | keyError (key : PyStr)
  | valueError (msg : PyStr)
deriving DecidableEq, Repr

/-- A Python float result: either NaN or an exact value (the rationals
arising here are exact in float arithmetic only for the small examples
we evaluate; the embedding computes the mathematical mean). -/
inductive PyFloat where
  | nan
  | val (q : ℚ)
deriving DecidableEq, Repr

/-- Error produced when `series.mode()[0]` is evaluated on an empty
series: the mode is an empty series and indexing it with 0 raises
`KeyError: 0`. -/
def modeEmptyErr : PyError := .keyError (pys "0")

/-- Turn an optional mode into the result of `mode()[0]`. -/
def ofMode : Option α → Except PyError α
  | some v => .ok v
  | none => .error modeEmptyErr

/-- The `CITY_DATA` dict of `load_data` (lines 22-26): city name to
csv file name, as an association list preserving source order. -/
def CITY_DATA : List (PyStr × PyStr) :=
  [(pys "chicago", pys "chicago.csv"),
   (pys "new york city", pys "new_york_city.csv"),
   (pys "washington", pys "washington.csv")]

/-- Python dict lookup on an association list (`CITY_DATA[key]`),
`none` modelling the `KeyError` branch. -/
def dictGet (k : PyStr) : List (PyStr × PyStr) → Option PyStr
  | [] => none
  | (k2, v) :: rest => if k2 = k then some v else dictGet k rest

/-- The environment standing for the file system plus the
`pd.read_csv` / `pd.to_datetime` / derived-column steps of `load_data`
(lines 27-31): it maps a csv file name to the fully loaded and derived
DataFrame, or to the error raised while reading or parsing it. -/
abbrev Env := PyStr → Except PyError DataFrame

/-- `load_data(city)` (lines 7-32): look the lowered city name up in
`CITY_DATA` (an unknown city raises `KeyError`), then read and derive
the frame for the file found. -/
def loadData (env : Env) (city : PyStr) : Except PyError DataFrame :=
  match dictGet (pyLower city) CITY_DATA with
  | none => .error (.keyError (pyLower city))
  | some fname => env fname

/-- The list `months = ['january', ..., 'june']` of
`load_data_filtered` (line 53). -/
def monthsList : List PyStr :=
  [pys "january", pys "february", pys "march", pys "april", pys "may", pys "june"]

/-- The list `days = ['monday', ..., 'sunday']` of
`load_data_filtered` (line 62). -/
def daysList : List PyStr :=
  [pys "monday", pys "tuesday", pys "wednesday", pys "thursday",
   pys "friday", pys "saturday", pys "sunday"]

/-- Message of the `ValueError` raised for an invalid month (line 56;
punctuation slightly simplified). -/
def invalidMonthMsg : PyStr := pys "Invalid month. Choose one of January-June or all."

/-- Message of the `ValueError` raised for an invalid day (line 65;
punctuation slightly simplified). -/
def invalidDayMsg : PyStr := pys "Invalid day. Choose a day Monday-Sunday or all."

/-- Python `list.index`: position of the first occurrence. -/
def listIndexOf [DecidableEq α] (a : α) : List α → Option Nat
  | [] => none
  | b :: bs => if b = a then some 0 else (listIndexOf a bs).map (· + 1)

/-- The month block of `load_data_filtered` (lines 51-58):
`if month and month.lower() != 'all':` validate `month.strip().lower()`
against `months` and keep the rows whose derived numeric `month` equals
`months.index(m) + 1`.  A `None` or empty (falsy) month and the exact
lowered sentinel `'all'` skip the block.  The membership test and
subsequent `months.index` are fused into one `listIndexOf` match. -/
def applyMonthFilter (df : DataFrame) (month : Option PyStr) : Except PyError DataFrame :=
  match month with
  | none => .ok df
  | some m =>
    if m = [] then .ok df
    else if pyLower m = pys "all" then .ok df
    else
      match listIndexOf (pyLower (pyStrip m)) monthsList with
      | none => .error (.valueError invalidMonthMsg)
      | some i => .ok { df with rows := df.rows.filter (fun r => decide (r.month = i + 1)) }

/-- The day block of `load_data_filtered` (lines 60-66): validate
`day.strip().lower()` against `days` and keep the rows whose
`day_of_week`, lowered, equals it. -/
def applyDayFilter (df : DataFrame) (day : Option PyStr) : Except PyError DataFrame :=
  match day with
  | none => .ok df
  | some d =>
    if d = [] then .ok df
    else if pyLower d = pys "all" then .ok df
    else
      if pyLower (pyStrip d) ∈ daysList then
        .ok { df with rows := df.rows.filter (fun r => decide (pyLower r.dayOfWeek = pyLower (pyStrip d))) }
      else .error (.valueError invalidDayMsg)

/-- The filtering part of `load_data_filtered` (lines 51-68): month
block then day block. -/
def applyFilters (df : DataFrame) (month day : Option PyStr) : Except PyError DataFrame :=
  (applyMonthFilter df month).bind (fun df1 => applyDayFilter df1 day)

/-- `load_data_filtered(city, month, day)` (lines 35-68). -/
def loadDataFiltered (env : Env) (city : PyStr) (month day : Option PyStr) :
    Except PyError DataFrame :=
  (loadData env city).bind (fun df => applyFilters df month day)

/-- `most_common_hour(df)` (lines 71-81): `int(df['hour'].mode()[0])`. -/
def mostCommonHour (df : DataFrame) : Except PyError Nat :=
  ofMode (pandasMode0 natLeB (df.rows.map (fun r => r.hour)))

/-- `user_types_count(df)` (lines 84-94): `df['User Type'].value_counts()`,
modelled as the multiplicity function of the column. -/
def userTypesCount (df : DataFrame) : PyStr → Nat :=
  fun t => countIn (df.rows.map (fun r => r.userType)) t

/-- `gender_count(df)` (lines 97-107): `df['Gender'].value_counts()`;
raises `KeyError` when the frame has no `Gender` column. -/
def genderCount (df : DataFrame) : Except PyError (PyStr → Nat) :=
  if df.hasGender then
    .ok (fun g => countIn (df.rows.map (fun r => r.gender)) g)
  else .error (.keyError (pys "Gender"))

/-- `int()` of the min of a nonempty `Birth Year` column. -/
def listMinInt (x : Int) (xs : List Int) : Int := xs.foldl min x

/-- `int()` of the max of a nonempty `Birth Year` column. -/
def listMaxInt (x : Int) (xs : List Int) : Int := xs.foldl max x

/-- `birth_year_stats(df)` (lines 110-123): `(int(min), int(max),
int(mode()[0]))` of `Birth Year`.  A missing column raises `KeyError`;
on an empty frame `min()` is NaN and `int(nan)` raises `ValueError`. -/
def birthYearStats (df : DataFrame) : Except PyError (Int × Int × Int) :=
  if df.hasBirthYear then
    match df.rows.map (fun r => r.birthYear) with
    | [] => .error (.valueError (pys "cannot convert float NaN to integer"))
    | y :: ys =>
      match pandasMode0 intLeB (y :: ys) with
      | some m => .ok (listMinInt y ys, listMaxInt y ys, m)
      | none => .error modeEmptyErr
  else .error (.keyError (pys "Birth Year"))

/-- `most_common_month(df)` (lines 126-136): `int(df['month'].mode()[0])`. -/
def mostCommonMonth (df : DataFrame) : Except PyError Nat :=
  ofMode (pandasMode0 natLeB (df.rows.map (fun r => r.month)))

/-- `most_common_day(df)` (lines 139-149): `df['day_of_week'].mode()[0]`. -/
def mostCommonDay (df : DataFrame) : Except PyError PyStr :=
  ofMode (pandasMode0 strLe (df.rows.map (fun r => r.dayOfWeek)))

/-- `total_travel_time(df)` (lines 152-162): `int(df['Trip Duration'].sum())`
(pandas sums an empty column to 0). -/
def totalTravelTime (df : DataFrame) : Int :=
  (df.rows.map (fun r => r.tripDuration)).sum

/-- `average_travel_time(df)` (lines 165-175): `float(df['Trip Duration'].mean())`.
The pandas mean of an empty column is NaN, so the Python function
returns NaN on an empty frame rather than raising. -/
def averageTravelTime (df : DataFrame) : PyFloat :=
  if df.rows.length = 0 then .nan
  else .val (((df.rows.map (fun r => r.tripDuration)).sum : ℚ) / (df.rows.length : ℚ))

/-- The synthesized per-record trip string
`df['Start Station'] + " to " + df['End Station']` (line 190). -/
def tripString (r : Row) : PyStr := r.startStation ++ pys " to " ++ r.endStation

/-- The column assignment `df['Trip'] = ...` (line 190): every row gets
the synthesized trip string and the frame gains the `Trip` column. -/
def addTripColumn (df : DataFrame) : DataFrame :=
  { df with hasTrip := true, rows := df.rows.map (fun r => { r with trip := tripString r }) }

/-- `most_common_stations(df)` (lines 178-192).  The start and end
modes are computed first; then the frame passed in is mutated by the
`df['Trip'] = ...` assignment; then the trip mode is read off the new
column.  The returned pair is (result or exception, the frame object as
it is left by the call). -/
def mostCommonStations (df : DataFrame) :
    Except PyError (PyStr × PyStr × PyStr) × DataFrame :=
  match pandasMode0 strLe (df.rows.map (fun r => r.startStation)) with
  | none => (.error modeEmptyErr, df)
  | some s =>
    match pandasMode0 strLe (df.rows.map (fun r => r.endStation)) with
    | none => (.error modeEmptyErr, df)
    | some e =>
      let df2 := addTripColumn df
      match pandasMode0 strLe (df2.rows.map (fun r => r.trip)) with
      | none => (.error modeEmptyErr, df2)
      | some t => (.ok (s, e, t), df2)

/-- The statistics `main` computes and prints for one query
(lines 275-300).  `demographics` is `none` when the city block guarding
`gender_count` and `birth_year_stats` is skipped. -/
structure StatsReport where
  month : Nat
  day : PyStr
  hour : Nat
  stations : PyStr × PyStr × PyStr
  total : Int
  average : PyFloat
  userTypes : PyStr → Nat
  demographics : Option ((PyStr → Nat) × (Int × Int × Int))

/-- The cities for which `main` invokes the demographic aggregates
(line 293): `if city in ['chicago', 'new york city']`. -/
def demographicCities : List PyStr := [pys "chicago", pys "new york city"]

/-- The statistics-computation section of `main` (lines 275-300),
applied to an already loaded and filtered frame.  Each aggregate is
invoked in source order; an exception aborts the whole computation, and
the demographic aggregates run only for chicago and new york city.
`most_common_stations` mutates the frame, so the later aggregates see
the mutated frame object. -/
def runStats (city : PyStr) (df : DataFrame) : Except PyError StatsReport :=
  match mostCommonMonth df with
  | .error e => .error e
  | .ok mo =>
    match mostCommonDay df with
    | .error e => .error e
    | .ok dy =>
      match mostCommonHour df with
      | .error e => .error e
      | .ok hr =>
        match mostCommonStations df with
        | (.error e, _) => .error e
        | (.ok st, df1) =>
          let tt := totalTravelTime df1
          let av := averageTravelTime df1
          let ut := userTypesCount df1
          if city ∈ demographicCities then
            match genderCount df1 with
            | .error e => .error e
            | .ok g =>
              match birthYearStats df1 with
              | .error e => .error e
              | .ok bys =>
                .ok { month := mo, day := dy, hour := hr, stations := st,
                      total := tt, average := av, userTypes := ut,
                      demographics := some (g, bys) }
          else
            .ok { month := mo, day := dy, hour := hr, stations := st,
                  total := tt, average := av, userTypes := ut,
                  demographics := none }

deriving instance DecidableEq for Except

/-- Remove the synthesized `Trip` value from a row, leaving the columns
the row had before `most_common_stations` ran. -/
def eraseTrip (r : Row) : Row := { r with trip := [] }

theorem listIndexOf_of_mem [DecidableEq α] {a : α} :
    ∀ {l : List α}, a ∈ l → ∃ i, listIndexOf a l = some i := by
  intro l
  induction l with
  | nil => intro h; cases h
  | cons b bs ih =>
    intro h
    by_cases hba : b = a
    · exact ⟨0, by simp [listIndexOf, hba]⟩
    · rcases List.mem_cons.mp h with h2 | h2
      · exact absurd h2.symm hba
      · rcases ih h2 with ⟨i, hi⟩
        exact ⟨i + 1, by simp [listIndexOf, hba, hi]⟩

theorem listIndexOf_eq_none [DecidableEq α] {a : α} :
    ∀ {l : List α}, a ∉ l → listIndexOf a l = none := by
  intro l
  induction l with
  | nil => intro _; rfl
  | cons b bs ih =>
    intro h
    have hba : ¬ b = a := fun he => h (List.mem_cons.mpr (Or.inl he.symm))
    have hbs : a ∉ bs := fun hm => h (List.mem_cons_of_mem _ hm)
    simp [listIndexOf, hba, ih hbs]

theorem dictGet_some_mem {k v : PyStr} :
    ∀ {l : List (PyStr × PyStr)}, dictGet k l = some v → (k, v) ∈ l := by
  intro l
  induction l with
  | nil => intro h; cases h
  | cons p ps ih =>
    intro h
    obtain ⟨k2, v2⟩ := p
    by_cases hk : k2 = k
    · have h2 : some v2 = some v := by simpa [dictGet, hk] using h
      have h3 : v2 = v := Option.some.inj h2
      subst hk; subst h3
      exact List.mem_cons_self _ _
    · have h2 : dictGet k ps = some v := by simpa [dictGet, hk] using h
      exact List.mem_cons_of_mem _ (ih h2)

theorem dictGet_of_mem_keys {k : PyStr} :
    ∀ {l : List (PyStr × PyStr)}, k ∈ l.map Prod.fst → ∃ v, dictGet k l = some v := by
  intro l
  induction l with
  | nil => intro h; cases h
  | cons p ps ih =>
    intro h
    obtain ⟨k2, v2⟩ := p
    by_cases hk : k2 = k
    · exact ⟨v2, by simp [dictGet, hk]⟩
    · have h2 : k ∈ ps.map Prod.fst := by
        rcases List.mem_cons.mp h with h3 | h3
        · exact absurd h3.symm hk
        · exact h3
      rcases ih h2 with ⟨v, hv⟩
      exact ⟨v, by simp [dictGet, hk, hv]⟩

theorem dictGet_none_of_not_mem {k : PyStr} :
    ∀ {l : List (PyStr × PyStr)}, k ∉ l.map Prod.fst → dictGet k l = none := by
  intro l
  induction l with
  | nil => intro _; rfl
  | cons p ps ih =>
    intro h
    obtain ⟨k2, v2⟩ := p
    have hk : ¬ k2 = k := fun he => h (by simp [he])
    have h2 : k ∉ ps.map Prod.fst := fun hm => h (by simp [hm])
    simp [dictGet, hk, ih h2]

theorem toLower_of_isSpace {c : Char} (h : pyIsSpace c = true) : Char.toLower c = c := by
  simp only [pyIsSpace, Bool.or_eq_true, decide_eq_true_eq] at h
  rcases h with ((((h | h) | h) | h) | h) | h <;> subst h <;> decide

theorem pyStrip_of_lower_all {m : PyStr} (h : pyLower m = pys "all") :
    pyStrip m = m := by
  rcases m with _ | ⟨c1, m1⟩
  · rfl
  rcases m1 with _ | ⟨c2, m2⟩
  · exact absurd h (by simp [pyLower, pys])
  rcases m2 with _ | ⟨c3, m3⟩
  · exact absurd h (by simp [pyLower, pys])
  rcases m3 with _ | ⟨c4, m4⟩
  swap
  · exact absurd h (by simp [pyLower, pys])
  have h3 : c1.toLower = 'a' ∧ c2.toLower = 'l' ∧ c3.toLower = 'l' := by
    simpa [pyLower, pys] using h
  have hsp1 : pyIsSpace c1 = false := by
    by_contra hc
    have hc2 : pyIsSpace c1 = true := by revert hc; cases pyIsSpace c1 <;> simp
    have he := toLower_of_isSpace hc2
    rw [he] at h3
    rw [h3.1] at hc2
    exact absurd hc2 (by decide)
  have hsp3 : pyIsSpace c3 = false := by
    by_contra hc
    have hc2 : pyIsSpace c3 = true := by revert hc; cases pyIsSpace c3 <;> simp
    have he := toLower_of_isSpace hc2
    rw [he] at h3
    rw [h3.2.2] at hc2
    exact absurd hc2 (by decide)
  simp [pyStrip, List.dropWhile, hsp1, hsp3]

theorem valid_arg_not_all {m : PyStr} {L : List PyStr} (hall : pys "all" ∉ L)
    (h : pyLower (pyStrip m) ∈ L) : pyLower m ≠ pys "all" := by
  intro he
  rw [pyStrip_of_lower_all he, he] at h
  exact hall h

theorem valid_month_ne_nil {m : PyStr} (h : pyLower (pyStrip m) ∈ monthsList) :
    m ≠ [] := by
  intro hnil; subst hnil; exact absurd h (by decide)

theorem valid_day_ne_nil {d : PyStr} (h : pyLower (pyStrip d) ∈ daysList) :
    d ≠ [] := by
  intro hnil; subst hnil; exact absurd h (by decide)

theorem filter_filter' (p q : α → Bool) :
    ∀ l : List α, (l.filter p).filter q = l.filter (fun a => p a && q a) := by
  intro l
  induction l with
  | nil => rfl
  | cons a as ih =>
    by_cases hp : p a
    · by_cases hq : q a <;> simp [List.filter_cons, hp, hq, ih]
    · simp [List.filter_cons, hp, ih]

theorem filter_ext (p q : α → Bool) (h : ∀ a, p a = q a) :
    ∀ l : List α, l.filter p = l.filter q := by
  intro l
  induction l with
  | nil => rfl
  | cons a as ih => simp [List.filter_cons, h a, ih]

theorem filter_eq_self_of_mem {p : α → Bool} :
    ∀ {l : List α}, (∀ a ∈ l, p a = true) → l.filter p = l := by
  intro l
  induction l with
  | nil => intro _; rfl
  | cons a as ih =>
    intro h
    have ha := h a (List.mem_cons_self _ _)
    simp [List.filter_cons, ha, ih (fun b hb => h b (List.mem_cons_of_mem _ hb))]

theorem map_ne_nil_of_ne_nil {l : List β} (h : l ≠ []) (f : β → α) :
    l.map f ≠ [] := by
  intro hm
  rcases l with _ | ⟨b, bs⟩
  · exact h rfl
  · cases hm

/-- An empty frame with all optional source columns present
(a chicago-like frame with no matching records). -/
def emptyDf : DataFrame := { rows := [] }

/-- A frame with trip durations 60, 120 and 180 seconds. -/
def exDurDf : DataFrame :=
  { rows := [{ tripDuration := 60 }, { tripDuration := 120 }, { tripDuration := 180 }] }

/-- A frame whose weekday column is `["Tuesday", "Monday"]`: both values
occur once and `Tuesday` is first in source order. -/
def cexDayDf : DataFrame :=
  { rows := [{ dayOfWeek := pys "Tuesday" }, { dayOfWeek := pys "Monday" }] }

/-- A small three-row chicago-like frame used to instantiate the
universally quantified theorems. -/
def exDf : DataFrame :=
  { rows :=
    [{ month := 1, dayOfWeek := pys "Monday", hour := 9, startStation := pys "X",
       endStation := pys "Y", tripDuration := 60, userType := pys "Subscriber",
       gender := pys "Male", birthYear := 1990 },
     { month := 2, dayOfWeek := pys "Tuesday", hour := 9, startStation := pys "X",
       endStation := pys "Z", tripDuration := 120, userType := pys "Customer",
       gender := pys "Female", birthYear := 1985 },
     { month := 1, dayOfWeek := pys "Monday", hour := 10, startStation := pys "W",
       endStation := pys "Y", tripDuration := 180, userType := pys "Subscriber",
       gender := pys "Male", birthYear := 1990 }] }

/-- A one-row frame without a `Trip` column, used to exhibit the
mutation performed by `most_common_stations`. -/
def c3Df : DataFrame :=
  { rows := [{ startStation := pys "A", endStation := pys "B" }] }

/-- A frame on which the most common trip pair differs from the pair of
the individually most common stations: starts `[X, X, W]` (mode `X`),
ends `[Y, Z, Y]` (mode `Y`), but each synthesized trip occurs once, so
the trip mode is the lexicographically least trip string `"W to Y"`,
not `"X to Y"`. -/
def c7Df : DataFrame :=
  { rows :=
    [{ startStation := pys "X", endStation := pys "Y" },
     { startStation := pys "X", endStation := pys "Z" },
     { startStation := pys "W", endStation := pys "Y" }] }

/-- A washington-like frame: no `Gender` and no `Birth Year` column. -/
def washDf : DataFrame :=
  { rows := [{ userType := pys "Subscriber" }], hasGender := false, hasBirthYear := false }

theorem monthFilter_shape (m : Option PyStr) :
    (∀ df, applyMonthFilter df m = .ok df) ∨
    (∃ p, ∀ df, applyMonthFilter df m = .ok { df with rows := df.rows.filter p }) ∨
    (∃ err, ∀ df, applyMonthFilter df m = .error err) := by
  rcases m with _ | s
  · exact Or.inl (fun df => rfl)
  · by_cases h1 : s = []
    · exact Or.inl (fun df => by simp [applyMonthFilter, h1])
    · by_cases h2 : pyLower s = pys "all"
      · exact Or.inl (fun df => by simp [applyMonthFilter, h1, h2])
      · rcases hidx : listIndexOf (pyLower (pyStrip s)) monthsList with _ | i
        · refine Or.inr (Or.inr ⟨.valueError invalidMonthMsg, fun df => ?_⟩)
          simp [applyMonthFilter, h1, h2, hidx]
        · refine Or.inr (Or.inl ⟨fun r => decide (r.month = i + 1), fun df => ?_⟩)
          simp [applyMonthFilter, h1, h2, hidx]

theorem dayFilter_shape (d : Option PyStr) :
    (∀ df, applyDayFilter df d = .ok df) ∨
    (∃ p, ∀ df, applyDayFilter df d = .ok { df with rows := df.rows.filter p }) ∨
    (∃ err, ∀ df, applyDayFilter df d = .error err) := by
  rcases d with _ | s
  · exact Or.inl (fun df => rfl)
  · by_cases h1 : s = []
    · exact Or.inl (fun df => by simp [applyDayFilter, h1])
    · by_cases h2 : pyLower s = pys "all"
      · exact Or.inl (fun df => by simp [applyDayFilter, h1, h2])
      · by_cases h3 : pyLower (pyStrip s) ∈ daysList
        · refine Or.inr (Or.inl
            ⟨fun r => decide (pyLower r.dayOfWeek = pyLower (pyStrip s)), fun df => ?_⟩)
          simp [applyDayFilter, h1, h2, h3]
        · refine Or.inr (Or.inr ⟨.valueError invalidDayMsg, fun df => ?_⟩)
          simp [applyDayFilter, h1, h2, h3]

/-- C6: filtering is idempotent.  Whenever `load_data_filtered`'s filter
stage succeeds, applying the same month/day filter stage again to the
resulting view succeeds and returns the view unchanged (the second
month and day predicates keep every remaining row). -/
theorem filter_idempotent (df dfv : DataFrame) (m d : Option PyStr)
    (h : applyFilters df m d = .ok dfv) : applyFilters dfv m d = .ok dfv := by
  have hrowsub : ∀ p2 : Row → Bool,
      (∀ a ∈ dfv.rows, p2 a = true) → { dfv with rows := dfv.rows.filter p2 } = dfv := by
    intro p2 hall
    have : dfv.rows.filter p2 = dfv.rows := filter_eq_self_of_mem hall
    rw [this]
  rcases monthFilter_shape m with hm | ⟨p1, hm⟩ | ⟨err, hm⟩
  · rcases dayFilter_shape d with hd | ⟨p2, hd⟩ | ⟨err, hd⟩
    · have h2 : df = dfv := by simpa [applyFilters, hm df, Except.bind, hd df] using h
      subst h2
      simp [applyFilters, hm df, Except.bind, hd df]
    · have h2 : { df with rows := df.rows.filter p2 } = dfv := by
        simpa [applyFilters, hm df, Except.bind, hd df] using h
      have hmem : ∀ a ∈ dfv.rows, p2 a = true := by
        intro a ha
        rw [← h2] at ha
        exact List.of_mem_filter ha
      simp [applyFilters, hm dfv, Except.bind, hd dfv, hrowsub p2 hmem]
    · exfalso
      have := h
      simp [applyFilters, hm df, Except.bind, hd df] at this
  · rcases dayFilter_shape d with hd | ⟨p2, hd⟩ | ⟨err, hd⟩
    · have h2 : { df with rows := df.rows.filter p1 } = dfv := by
        simpa [applyFilters, hm df, Except.bind, hd _] using h
      have hmem : ∀ a ∈ dfv.rows, p1 a = true := by
        intro a ha
        rw [← h2] at ha
        exact List.of_mem_filter ha
      have hrow : { dfv with rows := dfv.rows.filter p1 } = dfv := hrowsub p1 hmem
      simp [applyFilters, hm dfv, Except.bind, hrow, hd dfv]
    · have h2 : { df with rows := (df.rows.filter p1).filter p2 } = dfv := by
        simpa [applyFilters, hm df, Except.bind, hd _] using h
      have hmem1 : ∀ a ∈ dfv.rows, p1 a = true := by
        intro a ha
        rw [← h2] at ha
        exact List.of_mem_filter (List.mem_of_mem_filter ha)
      have hmem2 : ∀ a ∈ dfv.rows, p2 a = true := by
        intro a ha
        rw [← h2] at ha
        exact List.of_mem_filter ha
      have hrow1 : dfv.rows.filter p1 = dfv.rows := filter_eq_self_of_mem hmem1
      simp [applyFilters, hm dfv, Except.bind, hrow1, hd dfv, hrowsub p2 hmem2]
    · exfalso
      have := h
      simp [applyFilters, hm df, Except.bind, hd _] at this
  · exfalso
    have := h
    simp [applyFilters, hm df, Except.bind] at this

/-- Witness for `filter_idempotent`: the concrete frame `exDf` filtered
by month `" January "` and day `"monday"`, filtered again, is
unchanged. -/
theorem filter_idempotent_witness :
    applyFilters exDf (some (pys " January ")) (some (pys "monday")) =
      .ok { exDf with rows := [exDf.rows.get ⟨0, by decide⟩, exDf.rows.get ⟨2, by decide⟩] } ∧
    applyFilters { exDf with rows := [exDf.rows.get ⟨0, by decide⟩, exDf.rows.get ⟨2, by decide⟩] }
        (some (pys " January ")) (some (pys "monday")) =
      .ok { exDf with rows := [exDf.rows.get ⟨0, by decide⟩, exDf.rows.get ⟨2, by decide⟩] } := by
  constructor
  · decide
  · exact filter_idempotent exDf _ (some (pys " January ")) (some (pys "monday")) (by decide)

/-- C5: for a valid month name `m` (trimmed, case-insensitive member of
January..June) and valid weekday name `d`, the filtered view contains
exactly the records whose derived numeric `month` equals the 1-based
position of `m` in the month list AND whose `day_of_week` equals `d`
case-insensitively on both sides, in original source order
(`List.filter` preserves order and never duplicates); with a single
predicate only that conjunct applies. -/
theorem filter_semantics (df : DataFrame) (m d : PyStr)
    (hm : pyLower (pyStrip m) ∈ monthsList) (hd : pyLower (pyStrip d) ∈ daysList) :
    ∃ i, listIndexOf (pyLower (pyStrip m)) monthsList = some i ∧
      applyFilters df (some m) (some d) =
        .ok { df with rows := df.rows.filter (fun r =>
          decide (r.month = i + 1) && decide (pyLower r.dayOfWeek = pyLower (pyStrip d))) } ∧
      applyFilters df (some m) none =
        .ok { df with rows := df.rows.filter (fun r => decide (r.month = i + 1)) } ∧
      applyFilters df none (some d) =
        .ok { df with rows := df.rows.filter (fun r =>
          decide (pyLower r.dayOfWeek = pyLower (pyStrip d))) } := by
  obtain ⟨i, hi⟩ := listIndexOf_of_mem hm
  have hm1 : m ≠ [] := valid_month_ne_nil hm
  have hm2 : pyLower m ≠ pys "all" := valid_arg_not_all (by decide) hm
  have hd1 : d ≠ [] := valid_day_ne_nil hd
  have hd2 : pyLower d ≠ pys "all" := valid_arg_not_all (by decide) hd
  refine ⟨i, hi, ?_, ?_, ?_⟩
  · simp [applyFilters, applyMonthFilter, applyDayFilter, hm1, hm2, hi, hd1, hd2, hd,
      Except.bind, filter_filter']
    exact filter_ext _ _ (fun a => Bool.and_comm _ _) df.rows
  · simp [applyFilters, applyMonthFilter, applyDayFilter, hm1, hm2, hi, Except.bind]
  · simp [applyFilters, applyMonthFilter, applyDayFilter, hd1, hd2, hd, Except.bind]

/-- Witness for `filter_semantics` at the frame `exDf` with the
decorated month name `" January "` and weekday name `"MONDAY"`. -/
theorem filter_semantics_witness :
    pyLower (pyStrip (pys " January ")) ∈ monthsList ∧
    pyLower (pyStrip (pys "MONDAY")) ∈ daysList ∧
    (∃ i, listIndexOf (pyLower (pyStrip (pys " January "))) monthsList = some i ∧
      applyFilters exDf (some (pys " January ")) (some (pys "MONDAY")) =
        .ok { exDf with rows := exDf.rows.filter (fun r =>
          decide (r.month = i + 1) &&
          decide (pyLower r.dayOfWeek = pyLower (pyStrip (pys "MONDAY")))) } ∧
      applyFilters exDf (some (pys " January ")) none =
        .ok { exDf with rows := exDf.rows.filter (fun r => decide (r.month = i + 1)) } ∧
      applyFilters exDf none (some (pys "MONDAY")) =
        .ok { exDf with rows := exDf.rows.filter (fun r =>
          decide (pyLower r.dayOfWeek = pyLower (pyStrip (pys "MONDAY")))) }) :=
  ⟨by decide, by decide,
    filter_semantics exDf (pys " January ") (pys "MONDAY") (by decide) (by decide)⟩

/-- C4 (amended): a *non-empty* month argument that is not the exact
lowered sentinel `'all'` and whose trimmed lowered form is outside
January..June makes the filter fail with the invalid-month
`ValueError`, whatever the day argument is; likewise a non-empty day
argument outside Monday..Sunday fails with the invalid-day
`ValueError`.  (The empty string, although also outside both canonical
sets, is falsy in Python and is silently treated as "no filter" — see
the counterexample.) -/
theorem invalid_filter_rejected (df : DataFrame) (m d : PyStr)
    (hm1 : m ≠ []) (hm2 : pyLower m ≠ pys "all") (hm3 : pyLower (pyStrip m) ∉ monthsList)
    (hd1 : d ≠ []) (hd2 : pyLower d ≠ pys "all") (hd3 : pyLower (pyStrip d) ∉ daysList) :
    (∀ dayArg, applyFilters df (some m) dayArg = .error (.valueError invalidMonthMsg)) ∧
    applyFilters df none (some d) = .error (.valueError invalidDayMsg) := by
  constructor
  · intro dayArg
    have hidx : listIndexOf (pyLower (pyStrip m)) monthsList = none := listIndexOf_eq_none hm3
    simp [applyFilters, applyMonthFilter, hm1, hm2, hidx, Except.bind]
  · simp [applyFilters, applyMonthFilter, applyDayFilter, hd1, hd2, hd3, Except.bind]

/-- Witness for `invalid_filter_rejected`: `month="December"` and
`day="Funday"` are rejected on the concrete frame `exDf`. -/
theorem invalid_filter_rejected_witness :
    (pys "December" ≠ ([] : PyStr) ∧ pyLower (pys "December") ≠ pys "all" ∧
     pyLower (pyStrip (pys "December")) ∉ monthsList ∧
     pys "Funday" ≠ ([] : PyStr) ∧ pyLower (pys "Funday") ≠ pys "all" ∧
     pyLower (pyStrip (pys "Funday")) ∉ daysList) ∧
    (∀ dayArg, applyFilters exDf (some (pys "December")) dayArg =
      .error (.valueError invalidMonthMsg)) ∧
    applyFilters exDf none (some (pys "Funday")) = .error (.valueError invalidDayMsg) :=
  ⟨⟨by decide, by decide, by decide, by decide, by decide, by decide⟩,
    invalid_filter_rejected exDf (pys "December") (pys "Funday")
      (by decide) (by decide) (by decide) (by decide) (by decide) (by decide)⟩

/-- Counterexample to C4 as stated: the empty string is a month (and
day) value whose trimmed form is outside the canonical sets and is not
the sentinel `'all'`, yet filtering with it raises nothing and applies
no filter, because `if month` / `if day` treats `""` as absent. -/
theorem empty_filter_string_cex :
    pyLower (pyStrip ([] : PyStr)) ∉ monthsList ∧
    pyLower (pyStrip ([] : PyStr)) ∉ daysList ∧
    ([] : PyStr) ≠ pys "all" ∧
    applyFilters exDf (some []) none = .ok exDf ∧
    applyFilters exDf none (some []) = .ok exDf := by decide

/-- C10: the `'all'` sentinel is compared against the *unstripped*
lowered argument, so a whitespace-padded `" all "` is not recognized as
"no restriction" and instead falls through to validation, which rejects
it; whitespace-padded valid names such as `" January "` and
`" Monday "` are stripped and accepted. -/
theorem all_sentinel_not_trimmed (df : DataFrame) :
    applyFilters df (some (pys " all ")) none = .error (.valueError invalidMonthMsg) ∧
    applyFilters df none (some (pys " all ")) = .error (.valueError invalidDayMsg) ∧
    applyFilters df (some (pys " January ")) none =
      .ok { df with rows := df.rows.filter (fun r => decide (r.month = 1)) } ∧
    applyFilters df none (some (pys " Monday ")) =
      .ok { df with rows := df.rows.filter (fun r =>
        decide (pyLower r.dayOfWeek = pys "monday")) } := by
  refine ⟨rfl, rfl, ?_, ?_⟩
  · show applyFilters df (some (pys " January ")) none = _
    rfl
  · rfl

/-- The tie-break behaviour of every mode-style aggregate, stated for
one frame: each returned value has maximal multiplicity in its column
and, among the values of maximal multiplicity, is the least in the
pandas ascending sort order (numeric order for numbers, lexicographic
code-point order for strings) — not the first-encountered value. -/
def modeTieBreakSpec (df : DataFrame) : Prop :=
  (∃ mo, mostCommonMonth df = .ok mo ∧
    isLeastMode natLeB (df.rows.map (fun r => r.month)) mo) ∧
  (∃ dy, mostCommonDay df = .ok dy ∧
    isLeastMode strLe (df.rows.map (fun r => r.dayOfWeek)) dy) ∧
  (∃ hr, mostCommonHour df = .ok hr ∧
    isLeastMode natLeB (df.rows.map (fun r => r.hour)) hr) ∧
  (∃ s e t dfr, mostCommonStations df = (.ok (s, e, t), dfr) ∧
    isLeastMode strLe (df.rows.map (fun r => r.startStation)) s ∧
    isLeastMode strLe (df.rows.map (fun r => r.endStation)) e ∧
    isLeastMode strLe (df.rows.map tripString) t) ∧
  (∃ ymin ymax ymode, birthYearStats df = .ok (ymin, ymax, ymode) ∧
    isLeastMode intLeB (df.rows.map (fun r => r.birthYear)) ymode) ∧
  (∀ u, userTypesCount df u = countIn (df.rows.map (fun r => r.userType)) u)

theorem addTrip_rows_map_trip (df : DataFrame) :
    (addTripColumn df).rows.map (fun r => r.trip) = df.rows.map tripString := by
  simp [addTripColumn, List.map_map]

/-- C1 (amended): on every non-empty view (with the Birth Year column
present for the birth-year part), every mode-style aggregate returns a
value of maximal occurrence count, but ties are broken by the *least*
value in pandas' ascending sort order — numeric order for
month/hour/birth year, lexicographic order for weekday, station and
trip strings — not by first encounter in source order; and
`user_types_count` maps each category to its occurrence count. -/
theorem mode_tie_break_least (df : DataFrame)
    (h : df.rows ≠ []) (hby : df.hasBirthYear = true) : modeTieBreakSpec df := by
  obtain ⟨mo, hmo⟩ := pandasMode0_eq_some natLeB (map_ne_nil_of_ne_nil h (fun r => r.month))
  obtain ⟨dy, hdy⟩ := pandasMode0_eq_some strLe (map_ne_nil_of_ne_nil h (fun r => r.dayOfWeek))
  obtain ⟨hr, hhr⟩ := pandasMode0_eq_some natLeB (map_ne_nil_of_ne_nil h (fun r => r.hour))
  obtain ⟨s, hs⟩ := pandasMode0_eq_some strLe (map_ne_nil_of_ne_nil h (fun r => r.startStation))
  obtain ⟨e, he⟩ := pandasMode0_eq_some strLe (map_ne_nil_of_ne_nil h (fun r => r.endStation))
  obtain ⟨t, ht⟩ := pandasMode0_eq_some strLe (map_ne_nil_of_ne_nil h tripString)
  have ht2 : pandasMode0 strLe ((addTripColumn df).rows.map (fun r => r.trip)) = some t := by
    rw [addTrip_rows_map_trip]; exact ht
  refine ⟨⟨mo, by simp [mostCommonMonth, ofMode, hmo],
      pandasMode0_spec natLeB natLeB_total natLeB_trans hmo⟩,
    ⟨dy, by simp [mostCommonDay, ofMode, hdy],
      pandasMode0_spec strLe strLe_total strLe_trans hdy⟩,
    ⟨hr, by simp [mostCommonHour, ofMode, hhr],
      pandasMode0_spec natLeB natLeB_total natLeB_trans hhr⟩,
    ⟨s, e, t, addTripColumn df, by simp [mostCommonStations, hs, he, ht2],
      pandasMode0_spec strLe strLe_total strLe_trans hs,
      pandasMode0_spec strLe strLe_total strLe_trans he,
      pandasMode0_spec strLe strLe_total strLe_trans ht⟩,
    ?_, fun u => rfl⟩
  rcases hmap : df.rows.map (fun r => r.birthYear) with _ | ⟨y, ys⟩
  · exact absurd hmap (map_ne_nil_of_ne_nil h (fun r => r.birthYear))
  · obtain ⟨ym, hym⟩ := pandasMode0_eq_some intLeB (List.cons_ne_nil y ys)
    refine ⟨listMinInt y ys, listMaxInt y ys, ym, ?_, ?_⟩
    · simp [birthYearStats, hby, hmap, hym]
    · rw [hmap]
      exact pandasMode0_spec intLeB intLeB_total intLeB_trans hym

/-- Witness for `mode_tie_break_least` at the concrete frame `exDf`. -/
theorem mode_tie_break_least_witness :
    exDf.rows ≠ [] ∧ exDf.hasBirthYear = true ∧ modeTieBreakSpec exDf :=
  ⟨by decide, rfl, mode_tie_break_least exDf (by decide) rfl⟩

/-- Counterexample to C1's tie-break rule as stated: in `cexDayDf` the
weekday column is `["Tuesday", "Monday"]`, both values occur equally
often and `Tuesday` is first in source order, yet `most_common_day`
returns `Monday` (the lexicographically least tied value), not the
first-encountered `Tuesday`. -/
theorem mode_tie_break_first_encounter_cex :
    cexDayDf.rows.map (fun r => r.dayOfWeek) = [pys "Tuesday", pys "Monday"] ∧
    countIn (cexDayDf.rows.map (fun r => r.dayOfWeek)) (pys "Tuesday") =
      countIn (cexDayDf.rows.map (fun r => r.dayOfWeek)) (pys "Monday") ∧
    mostCommonDay cexDayDf = .ok (pys "Monday") ∧
    mostCommonDay cexDayDf ≠ .ok (pys "Tuesday") := by decide

/-- C2 (amended): on an empty view `average_travel_time` returns the
float NaN (it does not raise, and the result is neither 0 nor any
numeric value) while `total_travel_time` returns 0; on a non-empty
view `total_travel_time` is the sum of the durations and
`average_travel_time` their arithmetic mean; durations [60, 120, 180]
give total 360 and average 120.0. -/
theorem travel_time_totals (dfe df : DataFrame)
    (he : dfe.rows = []) (hne : df.rows ≠ []) :
    averageTravelTime dfe = PyFloat.nan ∧
    totalTravelTime dfe = 0 ∧
    totalTravelTime df = (df.rows.map (fun r => r.tripDuration)).sum ∧
    averageTravelTime df =
      PyFloat.val (((df.rows.map (fun r => r.tripDuration)).sum : ℚ) / (df.rows.length : ℚ)) ∧
    totalTravelTime exDurDf = 360 ∧
    averageTravelTime exDurDf = PyFloat.val 120 := by
  have hlen : df.rows.length ≠ 0 := by
    intro h0
    exact hne (List.length_eq_zero.mp h0)
  refine ⟨by simp [averageTravelTime, he], by simp [totalTravelTime, he], rfl,
    by simp [averageTravelTime, hlen], by decide, ?_⟩
  show averageTravelTime exDurDf = PyFloat.val 120
  simp [averageTravelTime, exDurDf]
  norm_num

/-- Witness for `travel_time_totals` at the empty frame and `exDurDf`. -/
theorem travel_time_totals_witness :
    emptyDf.rows = [] ∧ exDurDf.rows ≠ [] ∧
    (averageTravelTime emptyDf = PyFloat.nan ∧
     totalTravelTime emptyDf = 0 ∧
     totalTravelTime exDurDf = (exDurDf.rows.map (fun r => r.tripDuration)).sum ∧
     averageTravelTime exDurDf =
       PyFloat.val (((exDurDf.rows.map (fun r => r.tripDuration)).sum : ℚ) /
         (exDurDf.rows.length : ℚ)) ∧
     totalTravelTime exDurDf = 360 ∧
     averageTravelTime exDurDf = PyFloat.val 120) :=
  ⟨rfl, by decide, travel_time_totals emptyDf exDurDf rfl (by decide)⟩

/-- Counterexample to C2 as stated: on the concrete empty view the code
returns the value NaN from `average_travel_time` — the function is
total and yields a float, it does not fail — while the claim demands a
failure. -/
theorem average_empty_nan_cex :
    averageTravelTime emptyDf = PyFloat.nan ∧ totalTravelTime emptyDf = 0 :=
  ⟨rfl, rfl⟩

/-- C3 (amended): `most_common_stations` does *not* leave the view's
columns unchanged: it adds the synthesized `Trip` column to the frame
it is given (the other aggregates, which are plain reads, touch
nothing).  The mutation is only the added column: row count, row
order and every pre-existing column value are preserved, and each
row's new `Trip` value is `start_station + " to " + end_station`. -/
theorem stations_adds_trip_column (df : DataFrame) (h : df.rows ≠ []) :
    (mostCommonStations df).2.hasTrip = true ∧
    (mostCommonStations df).2.hasGender = df.hasGender ∧
    (mostCommonStations df).2.hasBirthYear = df.hasBirthYear ∧
    (mostCommonStations df).2.rows.map eraseTrip = df.rows.map eraseTrip ∧
    ∀ r ∈ (mostCommonStations df).2.rows, r.trip = r.startStation ++ pys " to " ++ r.endStation := by
  obtain ⟨s, hs⟩ := pandasMode0_eq_some strLe (map_ne_nil_of_ne_nil h (fun r => r.startStation))
  obtain ⟨e, he⟩ := pandasMode0_eq_some strLe (map_ne_nil_of_ne_nil h (fun r => r.endStation))
  obtain ⟨t, ht⟩ := pandasMode0_eq_some strLe (map_ne_nil_of_ne_nil h tripString)
  have ht2 : pandasMode0 strLe ((addTripColumn df).rows.map (fun r => r.trip)) = some t := by
    rw [addTrip_rows_map_trip]; exact ht
  have hsnd : (mostCommonStations df).2 = addTripColumn df := by
    simp [mostCommonStations, hs, he, ht2]
  rw [hsnd]
  refine ⟨rfl, rfl, rfl, ?_, ?_⟩
  · simp [addTripColumn, List.map_map]
    intro a _
    rfl
  · intro r hr
    rcases List.mem_map.mp (by simpa [addTripColumn] using hr) with ⟨r0, _, hr0⟩
    rw [← hr0]
    rfl

/-- Witness for `stations_adds_trip_column` at the frame `exDf`. -/
theorem stations_adds_trip_column_witness :
    exDf.rows ≠ [] ∧
    ((mostCommonStations exDf).2.hasTrip = true ∧
     (mostCommonStations exDf).2.hasGender = exDf.hasGender ∧
     (mostCommonStations exDf).2.hasBirthYear = exDf.hasBirthYear ∧
     (mostCommonStations exDf).2.rows.map eraseTrip = exDf.rows.map eraseTrip ∧
     ∀ r ∈ (mostCommonStations exDf).2.rows,
       r.trip = r.startStation ++ pys " to " ++ r.endStation) :=
  ⟨by decide, stations_adds_trip_column exDf (by decide)⟩

/-- Counterexample to C3 as stated: the frame object `c3Df` is not left
unchanged by `most_common_stations` — the call returns a frame with a
`Trip` column the input did not have. -/
theorem stations_mutates_frame_cex :
    (mostCommonStations c3Df).2 ≠ c3Df ∧
    c3Df.hasTrip = false ∧
    (mostCommonStations c3Df).2.hasTrip = true := by decide

/-- C7: the trip component of `most_common_stations` is the pandas mode
of the per-record synthesized string `start_station + " to " +
end_station`, and it is not in general the concatenation of the two
individual modes: on `c7Df` the individual modes are `X` and `Y` but
the trip mode is `"W to Y"`, not `"X to Y"`. -/
theorem trip_mode_per_record (df : DataFrame) (h : df.rows ≠ []) :
    (∃ s e t dfr, mostCommonStations df = (.ok (s, e, t), dfr) ∧
      pandasMode0 strLe (df.rows.map tripString) = some t) ∧
    (mostCommonStations c7Df).1 = .ok (pys "X", pys "Y", pys "W to Y") ∧
    pys "W to Y" ≠ pys "X" ++ pys " to " ++ pys "Y" := by
  refine ⟨?_, by decide, by decide⟩
  obtain ⟨s, hs⟩ := pandasMode0_eq_some strLe (map_ne_nil_of_ne_nil h (fun r => r.startStation))
  obtain ⟨e, he⟩ := pandasMode0_eq_some strLe (map_ne_nil_of_ne_nil h (fun r => r.endStation))
  obtain ⟨t, ht⟩ := pandasMode0_eq_some strLe (map_ne_nil_of_ne_nil h tripString)
  have ht2 : pandasMode0 strLe ((addTripColumn df).rows.map (fun r => r.trip)) = some t := by
    rw [addTrip_rows_map_trip]; exact ht
  exact ⟨s, e, t, addTripColumn df, by simp [mostCommonStations, hs, he, ht2], ht⟩

/-- Witness for `trip_mode_per_record` at the frame `c7Df`. -/
theorem trip_mode_per_record_witness :
    c7Df.rows ≠ [] ∧
    ((∃ s e t dfr, mostCommonStations c7Df = (.ok (s, e, t), dfr) ∧
       pandasMode0 strLe (c7Df.rows.map tripString) = some t) ∧
     (mostCommonStations c7Df).1 = .ok (pys "X", pys "Y", pys "W to Y") ∧
     pys "W to Y" ≠ pys "X" ++ pys " to " ++ pys "Y") :=
  ⟨by decide, trip_mode_per_record c7Df (by decide)⟩

/-- C8: on a frame without a `Gender` column (washington),
`gender_count` fails with the column `KeyError` (the code-level shape
of the spec's `UnsupportedForCityError`), and the statistics section of
`main` run for washington never invokes the demographic aggregates: any
report it produces has no demographics block. -/
theorem gender_unsupported_city (df : DataFrame) (h : df.hasGender = false) :
    genderCount df = .error (.keyError (pys "Gender")) ∧
    ∀ rep, runStats (pys "washington") df = .ok rep → rep.demographics = none := by
  constructor
  · simp [genderCount, h]
  · intro rep hr
    unfold runStats at hr
    rcases hmo : mostCommonMonth df with e | mo <;> rw [hmo] at hr
    · cases hr
    rcases hdy : mostCommonDay df with e | dy <;> rw [hdy] at hr
    · cases hr
    rcases hhr : mostCommonHour df with e | hrr <;> rw [hhr] at hr
    · cases hr
    rcases hst : mostCommonStations df with ⟨res, df1⟩
    rw [hst] at hr
    rcases res with e | st
    · cases hr
    have hcity : ¬ pys "washington" ∈ demographicCities := by decide
    simp only [if_neg hcity] at hr
    injection hr with h2
    rw [← h2]

/-- Witness for `gender_unsupported_city` at the washington-like frame
`washDf`. -/
theorem gender_unsupported_city_witness :
    washDf.hasGender = false ∧
    (genderCount washDf = .error (.keyError (pys "Gender")) ∧
     ∀ rep, runStats (pys "washington") washDf = .ok rep → rep.demographics = none) :=
  ⟨rfl, gender_unsupported_city washDf rfl⟩

/-- C9: with every city file loadable, `load_data` succeeds exactly
when the lowered city identifier is a key of `CITY_DATA` (so matching
is case-insensitive against the fixed enumerated set), and an
unrecognized identifier raises the dict `KeyError` (the code-level
shape of the spec's `DataSourceError`) instead of returning an empty
frame. -/
theorem load_city_lookup (env : Env) (city : PyStr)
    (henv : ∀ fname, (∃ c, (c, fname) ∈ CITY_DATA) → ∃ dfr, env fname = .ok dfr) :
    ((∃ dfr, loadData env city = .ok dfr) ↔ pyLower city ∈ CITY_DATA.map Prod.fst) ∧
    (pyLower city ∉ CITY_DATA.map Prod.fst →
      loadData env city = .error (.keyError (pyLower city))) := by
  constructor
  · constructor
    · rintro ⟨dfr, hdf⟩
      unfold loadData at hdf
      rcases hg : dictGet (pyLower city) CITY_DATA with _ | fname
      · rw [hg] at hdf; cases hdf
      · exact List.mem_map.mpr ⟨(pyLower city, fname), dictGet_some_mem hg, rfl⟩
    · intro hmem
      rcases dictGet_of_mem_keys hmem with ⟨fname, hg⟩
      rcases henv fname ⟨pyLower city, dictGet_some_mem hg⟩ with ⟨dfr, hef⟩
      refine ⟨dfr, ?_⟩
      unfold loadData
      rw [hg]
      exact hef
  · intro hnm
    unfold loadData
    rw [dictGet_none_of_not_mem hnm]

/-- The trivial environment in which every file reads as the empty
chicago-like frame. -/
def okEnv : Env := fun _ => .ok emptyDf

/-- Witness for `load_city_lookup` with the mixed-case identifier
`"Chicago"` under `okEnv`. -/
theorem load_city_lookup_witness :
    (∀ fname, (∃ c, (c, fname) ∈ CITY_DATA) → ∃ dfr, okEnv fname = .ok dfr) ∧
    ((∃ dfr, loadData okEnv (pys "Chicago") = .ok dfr) ↔
      pyLower (pys "Chicago") ∈ CITY_DATA.map Prod.fst) ∧
    (pyLower (pys "Chicago") ∉ CITY_DATA.map Prod.fst →
      loadData okEnv (pys "Chicago") = .error (.keyError (pyLower (pys "Chicago")))) :=
  ⟨fun _ _ => ⟨emptyDf, rfl⟩,
    (load_city_lookup okEnv (pys "Chicago") (fun _ _ => ⟨emptyDf, rfl⟩)).1,
    (load_city_lookup okEnv (pys "Chicago") (fun _ _ => ⟨emptyDf, rfl⟩)).2⟩

end Bikeshare
